import Mathlib

/-!
A shallow embedding of `src/library_manager.py` (Personal Library Manager).

The source is a Streamlit application; per the specification, the core under
verification is the in-memory record store (`st.session_state.library`, a list
of book dicts) together with its query/mutation/persistence operations.
Presentation calls (`st.success`, `st.error`, `st.warning`, widgets) are
abstracted into returned condition values; the widgets' values become function
arguments.
-/

set_option autoImplicit false

namespace LibMgr

/-! ## Models of the Python string methods used by the source -/

/-- Model of `str.strip()` on the character list: drop leading and trailing
whitespace. -/
def stripChars (l : List Char) : List Char :=
  ((l.dropWhile Char.isWhitespace).reverse.dropWhile Char.isWhitespace).reverse

/-- Model of Python `str.strip()` (whitespace per `Char.isWhitespace`). -/
def pyStrip (s : String) : String :=
  ⟨stripChars s.data⟩

/-- Model of Python `str.lower()`: lowercase each character. -/
def pyLower (s : String) : String :=
  ⟨s.data.map Char.toLower⟩

/-- `listPre a b`: the list `a` is an initial segment of `b`. -/
def listPre : List Char → List Char → Bool
  | [], _ => true
  | _ :: _, [] => false
  | a :: as, b :: bs => a == b && listPre as bs

/-- `containsSub hay needle`: `needle` occurs contiguously inside `hay`. -/
def containsSub (hay needle : List Char) : Bool :=
  listPre needle hay ||
    match hay with
    | [] => false
    | _ :: t => containsSub t needle

/-- Model of Python `needle in hay` on strings (substring containment). -/
def pyIn (needle hay : String) : Bool :=
  containsSub hay.data needle.data

/-! ## Data model

A record of the library: the dict built by `add_book`
(`{"title": ..., "author": ..., "year": ..., "genre": ..., "read": ...}`). -/

structure Book where
  title : String
  author : String
  year : Int
  genre : String
  read : Bool
  deriving DecidableEq, Repr

/-! ## add_book (src/library_manager.py lines 35-59)

The widget values (`title`, `author`, `year`, `genre`, `read`) become
arguments; `year` is the integer produced by `int(year)` from the bounded
`st.number_input` (min 1, max 2025); `readChoice` is the selectbox string
("Yes" / "No"). Returns the updated library and a success flag
(`st.success` vs the `st.error` validation branch). -/

def add_book (lib : List Book) (title author : String) (year : Int)
    (genre : String) (readChoice : String) : List Book × Bool :=
  if pyStrip title ≠ "" ∧ pyStrip author ≠ "" ∧ pyStrip genre ≠ "" then
    (lib ++ [{ title := pyStrip title, author := pyStrip author, year := year,
               genre := pyStrip genre, read := readChoice == "Yes" }], true)
  else
    (lib, false)

/-! ## remove_book (src/library_manager.py lines 61-74) -/

/-- The scan `for book in st.session_state.library[:]` stopping at the first
book whose lowercased title equals `t`. -/
def firstMatch (t : String) : List Book → Option Book
  | [] => none
  | b :: bs => if pyLower b.title == t then some b else firstMatch t bs

/-- Model of Python `list.remove(b)`: delete the first element equal to `b`
(by value). The `[]` case is unreachable in `remove_book`, where `b` comes
from a scan of the list itself. -/
def listRemove : List Book → Book → List Book
  | [], _ => []
  | x :: xs, b => if x = b then xs else x :: listRemove xs b

/-- `remove_book`: on non-empty stripped input, scan for the first
case-insensitive title match and `list.remove` it (`some true` = the
`st.success` branch, `some false` = "Book not found"); on empty input the
validation `st.error` branch fires (`none`) and the library is unchanged. -/
def remove_book (lib : List Book) (raw : String) : List Book × Option Bool :=
  if pyStrip raw ≠ "" then
    match firstMatch (pyLower (pyStrip raw)) lib with
    | some b => (listRemove lib b, some true)
    | none => (lib, some false)
  else
    (lib, none)

/-! ## search_book (src/library_manager.py lines 76-97) -/

/-- The `st.selectbox("Search by", ["Title", "Author"])` value. -/
inductive SearchField
  | title
  | author
  deriving DecidableEq, Repr

/-- The field of a `Book` selected by `search_by`. -/
def fieldOf : SearchField → Book → String
  | .title, b => b.title
  | .author, b => b.author

/-- `search_book`: if the stripped term is empty the validation `st.error`
branch fires (`none`); otherwise the matches are the list comprehension
`[book for book in lib if search_term.lower() in book[field].lower()]` —
note the source lowercases but does **not** strip the term when matching. -/
def search_book (lib : List Book) (field : SearchField) (term : String) :
    Option (List Book) :=
  if pyStrip term ≠ "" then
    match field with
    | .title => some (lib.filter fun b => pyIn (pyLower term) (pyLower b.title))
    | .author => some (lib.filter fun b => pyIn (pyLower term) (pyLower b.author))
  else
    none

/-! ## display_statistics (src/library_manager.py lines 109-120) -/

/-- The statistics computation of lines 113-115: `total_books = len(lib)`,
`read_books = sum(1 for book in lib if book["read"])`,
`percentage_read = (read_books / total_books) * 100 if total_books > 0 else 0`.
Python float division is modelled by exact rational division. -/
def statistics (lib : List Book) : Nat × Nat × ℚ :=
  let total_books := lib.length
  let read_books := lib.countP fun b => b.read
  let percentage_read : ℚ :=
    if total_books > 0 then ((read_books : ℚ) / (total_books : ℚ)) * 100 else 0
  (total_books, read_books, percentage_read)

/-- `display_statistics`: the source computes and displays the statistics only
when the library is truthy (non-empty); on an empty library it shows the
"Your library is empty." warning instead (`none`). -/
def display_statistics (lib : List Book) : Option (Nat × Nat × ℚ) :=
  if lib = [] then none else some (statistics lib)

/-! ## Persistence (src/library_manager.py lines 6-33)

The file `library.txt` is modelled by a `FileState`: it is absent, or it
exists but `json.load` raises `JSONDecodeError` (`corrupt`), or it parses to
a JSON document (`wellFormed v`). `JValue` is the parsed JSON document; the
textual rendering produced by `json.dump(..., indent=4)` is modelled
separately by `renderFile` below. -/

inductive JValue
  | str (s : String)
  | int (n : Int)
  | bool (b : Bool)
  | arr (xs : List JValue)
  | obj (fields : List (String × JValue))

/-- The JSON object `json.dump` writes for one book dict: the five fields in
the dict's insertion order (title, author, year, genre, read), per
`add_book` lines 49-55. -/
def encodeBook (b : Book) : JValue :=
  .obj [("title", .str b.title), ("author", .str b.author),
        ("year", .int b.year), ("genre", .str b.genre),
        ("read", .bool b.read)]

/-- The JSON array `json.dump(st.session_state.library, ...)` writes. -/
def encodeLibrary (lib : List Book) : JValue :=
  .arr (lib.map encodeBook)

/-- Key lookup in a JSON object's field list (Python dict subscripting). -/
def jlookup : List (String × JValue) → String → Option JValue
  | [], _ => none
  | (k, v) :: fs, key => if k == key then some v else jlookup fs key

def asStr : JValue → Option String
  | .str s => some s
  | _ => none

def asInt : JValue → Option Int
  | .int n => some n
  | _ => none

def asBool : JValue → Option Bool
  | .bool b => some b
  | _ => none

/-- Reads one record of the persisted-file schema of spec §6: an object with
fields `title` (string), `author` (string), `year` (integer), `genre`
(string), `read` (boolean), in any field order. The source's `json.load`
returns dynamic dicts; this reader names the shape those dicts must have for
the rest of the source (which subscripts `book["title"]`, `book["author"]`,
`book["read"]`) to treat them as books. -/
def decodeBook : JValue → Option Book
  | .obj fs =>
    match jlookup fs "title" >>= asStr, jlookup fs "author" >>= asStr,
          jlookup fs "year" >>= asInt, jlookup fs "genre" >>= asStr,
          jlookup fs "read" >>= asBool with
    | some t, some a, some y, some g, some r =>
      some { title := t, author := a, year := y, genre := g, read := r }
    | _, _, _, _, _ => none
  | _ => none

def decodeBooks : List JValue → Option (List Book)
  | [] => some []
  | v :: vs =>
    match decodeBook v, decodeBooks vs with
    | some b, some bs => some (b :: bs)
    | _, _ => none

/-- Reads a whole persisted library (spec §6: a single array of records). -/
def decodeLibrary : JValue → Option (List Book)
  | .arr xs => decodeBooks xs
  | _ => none

/-- State of `library.txt`. -/
inductive FileState
  | absent
  | corrupt
  | wellFormed (v : JValue)

/-- The condition `load_library` reports: `st.success` / `st.info` ("No
library file found") / `st.error` ("Error loading library file"). -/
inductive LoadCondition
  | loadedOk
  | notFound
  | corruptData
  deriving DecidableEq, Repr

/-- The condition `save_library` reports: `st.success` / `st.error`. -/
inductive SaveCondition
  | savedOk
  | ioFailure
  deriving DecidableEq, Repr

/-- `load_library`: if the file is absent, only `st.info` runs and the
session library `lib` is untouched (at the only call site, line 128-129, it
is the empty library of line 11); on `JSONDecodeError` the library is set to
`[]`; on a parse the source assigns the parsed document to the session
library with no validation — the typed model reads it with the schema reader
`decodeLibrary` (a well-formed document that is not schema-shaped has no
typed counterpart; no claim depends on that case). The file itself is only
opened for reading, so the `FileState` passes through unchanged. -/
def load_library (lib : List Book) (f : FileState) :
    List Book × FileState × LoadCondition :=
  match f with
  | .absent => (lib, f, .notFound)
  | .corrupt => ([], f, .corruptData)
  | .wellFormed v => ((decodeLibrary v).getD [], f, .loadedOk)

/-- `save_library`: `open(LIBRARY_FILE, 'w')` + `json.dump(lib, file,
indent=4)` inside `try/except Exception`. `ioFails` models whether the
underlying I/O raises (permissions, disk full, ...): if so the exception is
caught and only `st.error` runs; otherwise the file is truncated and
rewritten with the encoded library. The session library is never assigned. -/
def save_library (lib : List Book) (f : FileState) (ioFails : Bool) :
    List Book × FileState × SaveCondition :=
  if ioFails then
    (lib, f, .ioFailure)
  else
    (lib, .wellFormed (encodeLibrary lib), .savedOk)

/-! ## Textual rendering of `json.dump(..., indent=4)`

Models the text written for the document shapes `save_library` produces
(an array of flat objects of scalars), matching CPython's `json.dump` with
`indent=4` and its default separators and `ensure_ascii` escaping (astral
characters, which need surrogate pairs, are out of scope). -/

/-- Lowercase hexadecimal digit. -/
def hexDigit (n : Nat) : Char :=
  if n < 10 then Char.ofNat (48 + n) else Char.ofNat (87 + n)

/-- Four lowercase hex digits, most significant first. -/
def hex4 (n : Nat) : String :=
  ⟨[hexDigit (n / 4096 % 16), hexDigit (n / 256 % 16),
    hexDigit (n / 16 % 16), hexDigit (n % 16)]⟩

/-- JSON escaping of one character, per CPython's `json` encoder with
`ensure_ascii=True`. -/
def jesc (c : Char) : String :=
  if c = '"' then "\\\""
  else if c = '\\' then "\\\\"
  else if c = '\n' then "\\n"
  else if c = '\t' then "\\t"
  else if c = '\r' then "\\r"
  else if c = Char.ofNat 8 then "\\b"
  else if c = Char.ofNat 12 then "\\f"
  else if c.toNat < 32 ∨ 127 ≤ c.toNat then "\\u" ++ hex4 c.toNat
  else String.singleton c

/-- A JSON string literal. -/
def jstring (s : String) : String :=
  "\"" ++ String.join (s.data.map jesc) ++ "\""

/-- Rendering of a scalar value (the only values the book fields hold). -/
def renderScalar : JValue → String
  | .str s => jstring s
  | .int n => toString n
  | .bool b => if b then "true" else "false"
  | _ => ""

/-- One `        "key": value` line of a record (fields sit at depth 2, so
8 spaces of indentation). -/
def renderFieldLine (kv : String × JValue) : String :=
  "        " ++ jstring kv.1 ++ ": " ++ renderScalar kv.2

/-- Rendering of one record object at depth 1 (4-space indent, fields
separated by `,\n`, closing brace back at depth 1). -/
def renderObj : JValue → String
  | .obj fs =>
    "    \x7b\n" ++ String.intercalate ",\n" (fs.map renderFieldLine) ++
      "\n    \x7d"
  | _ => ""

/-- Rendering of the whole document written by `json.dump(lib, file,
indent=4)`. -/
def renderFile : JValue → String
  | .arr [] => "[]"
  | .arr xs =>
    "[\n" ++ String.intercalate ",\n" (xs.map renderObj) ++ "\n]"
  | v => renderScalar v

/-! ## Specification-side definitions -/

/-- The matching predicate of `remove_book`'s scan: the book's lowercased
title equals the lowercased stripped input `t`. -/
def titleMatches (t : String) (b : Book) : Bool :=
  pyLower b.title == t

/-- Index of the first element satisfying `p` (specification side). -/
def firstIdx (p : Book → Bool) : List Book → Option Nat
  | [] => none
  | b :: bs => if p b then some 0 else (firstIdx p bs).map (· + 1)

/-- Deletion of the element at index `i` (specification side). -/
def eraseAt : List Book → Nat → List Book
  | [], _ => []
  | _ :: xs, 0 => xs
  | x :: xs, n + 1 => x :: eraseAt xs n

/-- The source's two-step removal (scan a copy with `firstMatch`, then
`list.remove` by value), as a function of the already-normalized title `t`. -/
def removeScan (t : String) (lib : List Book) : List Book :=
  match firstMatch t lib with
  | some b => listRemove lib b
  | none => lib

/-- Direct deletion at the first matching index, the reference behavior of
claim C10. -/
def removeAtFirst (t : String) (lib : List Book) : List Book :=
  match firstIdx (titleMatches t) lib with
  | some i => eraseAt lib i
  | none => lib

/-- Modelled from the spec: `search` as §4.1 words it, with the **trimmed**
term used for matching ("`term` is trimmed; ... case-insensitive substring
containment of `term` within the chosen field"). Used only to compare with
the source's `search_book`. -/
def search_spec (lib : List Book) (field : SearchField) (term : String) :
    Option (List Book) :=
  if pyStrip term ≠ "" then
    some (lib.filter fun b =>
      pyIn (pyLower (pyStrip term)) (pyLower (fieldOf field b)))
  else
    none

/-- The per-record invariant of spec §3: title/author/genre non-empty and
free of leading or trailing whitespace, and `1 ≤ year ≤ 2025`. -/
def BookInv (b : Book) : Prop :=
  pyStrip b.title = b.title ∧ b.title ≠ "" ∧
  pyStrip b.author = b.author ∧ b.author ≠ "" ∧
  pyStrip b.genre = b.genre ∧ b.genre ≠ "" ∧
  1 ≤ b.year ∧ b.year ≤ 2025

instance (b : Book) : Decidable (BookInv b) := by
  unfold BookInv
  infer_instance

/-! ## Helper lemmas: strip idempotence -/

theorem head?_dropWhile (p : Char → Bool) (l : List Char) (a : Char)
    (h : (l.dropWhile p).head? = some a) : p a = false := by
  induction l with
  | nil => simp at h
  | cons x xs ih =>
    by_cases hx : p x
    · rw [List.dropWhile_cons, if_pos hx] at h
      exact ih h
    · rw [List.dropWhile_cons, if_neg hx] at h
      simp only [List.head?_cons, Option.some.injEq] at h
      rw [← h]
      simpa using hx

theorem dropWhile_eq_self_of_head (p : Char → Bool) (l : List Char)
    (h : ∀ a, l.head? = some a → p a = false) : l.dropWhile p = l := by
  cases l with
  | nil => rfl
  | cons x xs => rw [List.dropWhile_cons, if_neg (by simp [h x rfl])]

theorem dropWhile_suffix_self (p : Char → Bool) (l : List Char) :
    l.dropWhile p <:+ l := by
  induction l with
  | nil => simp
  | cons x xs ih =>
    by_cases hx : p x
    · rw [List.dropWhile_cons, if_pos hx]
      exact ih.trans (List.suffix_cons x xs)
    · rw [List.dropWhile_cons, if_neg hx]

theorem strip_tail_pre (p : Char → Bool) (l : List Char) :
    (l.reverse.dropWhile p).reverse <+: l := by
  have h : l.reverse.dropWhile p <:+ l.reverse := dropWhile_suffix_self p l.reverse
  simpa using List.reverse_prefix.mpr h

theorem head?_of_pre {l₁ l₂ : List Char} (h : l₁ <+: l₂) (a : Char)
    (ha : l₁.head? = some a) : l₂.head? = some a := by
  obtain ⟨t, rfl⟩ := h
  cases l₁ with
  | nil => simp at ha
  | cons x xs =>
    simp only [List.head?_cons, Option.some.injEq] at ha
    simp [ha]

theorem stripChars_idem (l : List Char) :
    stripChars (stripChars l) = stripChars l := by
  have h1 : (stripChars l).dropWhile Char.isWhitespace = stripChars l := by
    apply dropWhile_eq_self_of_head
    intro a ha
    have hpre : stripChars l <+: l.dropWhile Char.isWhitespace :=
      strip_tail_pre Char.isWhitespace (l.dropWhile Char.isWhitespace)
    exact head?_dropWhile Char.isWhitespace l a (head?_of_pre hpre a ha)
  have h2 : (stripChars l).reverse.dropWhile Char.isWhitespace =
      (stripChars l).reverse := by
    have hrev : (stripChars l).reverse =
        ((l.dropWhile Char.isWhitespace).reverse).dropWhile Char.isWhitespace := by
      simp [stripChars]
    rw [hrev]
    apply dropWhile_eq_self_of_head
    intro a ha
    exact head?_dropWhile Char.isWhitespace _ a ha
  calc stripChars (stripChars l)
      = (((stripChars l).dropWhile Char.isWhitespace).reverse.dropWhile
          Char.isWhitespace).reverse := rfl
    _ = stripChars l := by rw [h1, h2, List.reverse_reverse]

theorem pyStrip_idem (s : String) : pyStrip (pyStrip s) = pyStrip s := by
  show String.mk (stripChars (stripChars s.data)) = String.mk (stripChars s.data)
  rw [stripChars_idem]

/-! ## Helper lemmas: the two-step removal equals erase-at-first-index -/

theorem firstMatch_none_iff (t : String) (lib : List Book) :
    firstMatch t lib = none ↔ firstIdx (titleMatches t) lib = none := by
  induction lib with
  | nil => simp [firstMatch, firstIdx]
  | cons b bs ih =>
    by_cases h : pyLower b.title == t
    · simp [firstMatch, firstIdx, titleMatches, h]
    · simp [firstMatch, firstIdx, titleMatches, h, ih]

theorem firstMatch_pred (t : String) (lib : List Book) (b : Book)
    (h : firstMatch t lib = some b) : pyLower b.title == t := by
  induction lib with
  | nil => simp [firstMatch] at h
  | cons x xs ih =>
    by_cases hx : pyLower x.title == t
    · rw [firstMatch, if_pos hx] at h
      simp only [Option.some.injEq] at h
      rw [← h]
      exact hx
    · rw [firstMatch, if_neg hx] at h
      exact ih h

theorem remove_scan_eq_idx (t : String) (lib : List Book) :
    removeScan t lib = removeAtFirst t lib := by
  induction lib with
  | nil => rfl
  | cons x xs ih =>
    by_cases hx : pyLower x.title == t
    · simp [removeScan, removeAtFirst, firstMatch, firstIdx, titleMatches, hx,
        listRemove, eraseAt]
    · have hx' : titleMatches t x = false := by simpa [titleMatches] using hx
      have hxne : pyLower x.title ≠ t := by simpa using hx
      cases hm : firstMatch t xs with
      | none =>
        have hn : firstIdx (titleMatches t) xs = none :=
          (firstMatch_none_iff t xs).mp hm
        simp [removeScan, removeAtFirst, firstMatch, firstIdx, hx', hxne, hm, hn]
      | some b =>
        have hb : pyLower b.title == t := firstMatch_pred t xs b hm
        have hxb : x ≠ b := by
          intro he
          rw [he] at hx
          exact hx hb
        obtain ⟨i, hi⟩ : ∃ i, firstIdx (titleMatches t) xs = some i := by
          cases hfi : firstIdx (titleMatches t) xs with
          | none =>
            have := (firstMatch_none_iff t xs).mpr hfi
            rw [hm] at this
            exact absurd this (by simp)
          | some i => exact ⟨i, rfl⟩
        have ihr : listRemove xs b = eraseAt xs i := by
          have h0 := ih
          rw [removeScan, removeAtFirst, hm, hi] at h0
          exact h0
        simp [removeScan, removeAtFirst, firstMatch, firstIdx, hx', hxne, hm,
          hi, listRemove, hxb, eraseAt, ihr]

/-! ## Helper lemmas: serialization round trip -/

theorem decodeBook_encodeBook (b : Book) : decodeBook (encodeBook b) = some b :=
  rfl

theorem decodeLibrary_encodeLibrary (L : List Book) :
    decodeLibrary (encodeLibrary L) = some L := by
  induction L with
  | nil => rfl
  | cons b bs ih =>
    have h2 : decodeBooks (bs.map encodeBook) = some bs := ih
    show decodeBooks (encodeBook b :: bs.map encodeBook) = some (b :: bs)
    rw [decodeBooks, decodeBook_encodeBook, h2]

/-- Loading right after a successful save yields exactly the saved library
(shared helper for the round-trip and invariant theorems). -/
theorem load_of_save (L prev : List Book) (f : FileState) :
    load_library prev ((save_library L f false).2.1) =
      (L, .wellFormed (encodeLibrary L), .loadedOk) := by
  show load_library prev (.wellFormed (encodeLibrary L)) = _
  rw [load_library, decodeLibrary_encodeLibrary]
  rfl

/-! ## Claim theorems -/

/-- C1: for every Library `L` (whose records conform to the §6 schema, which
every `Book` does), saving `L` and then loading from the resulting file
reproduces a Library with the same records in the same order with equal
field values — the save/load pair is lossless. -/
theorem save_load_round_trip (L prev : List Book) (f : FileState) :
    load_library prev ((save_library L f false).2.1) =
      (L, .wellFormed (encodeLibrary L), .loadedOk) :=
  load_of_save L prev f

/-- C2: for every Library and title input, when the input is non-empty after
trimming, `remove_book` deletes exactly the Book at the first index whose
title equals the trimmed input case-insensitively and reports `some true`;
with no match the Library is unchanged and it reports `some false`; and with
two records sharing a title, only the first in insertion order is removed. -/
theorem remove_book_correct (lib : List Book) (raw : String) :
    remove_book lib raw =
      (if pyStrip raw ≠ "" then
        match firstIdx (titleMatches (pyLower (pyStrip raw))) lib with
        | some i => (eraseAt lib i, some true)
        | none => (lib, some false)
      else (lib, none)) ∧
    remove_book [⟨"Foo", "A1", 2000, "g", false⟩, ⟨"Foo", "A2", 2001, "h", true⟩]
        "foo" =
      ([⟨"Foo", "A2", 2001, "h", true⟩], some true) := by
  constructor
  · by_cases h : pyStrip raw ≠ ""
    · rw [remove_book, if_pos h, if_pos h]
      have hsi := remove_scan_eq_idx (pyLower (pyStrip raw)) lib
      rw [removeScan, removeAtFirst] at hsi
      cases hm : firstMatch (pyLower (pyStrip raw)) lib with
      | some b =>
        rw [hm] at hsi
        cases hi : firstIdx (titleMatches (pyLower (pyStrip raw))) lib with
        | none =>
          have := (firstMatch_none_iff (pyLower (pyStrip raw)) lib).mpr hi
          rw [hm] at this
          exact absurd this (by simp)
        | some i =>
          rw [hi] at hsi
          have hsi' : listRemove lib b = eraseAt lib i := hsi
          simp only [hi, hsi']
      | none =>
        have hn := (firstMatch_none_iff (pyLower (pyStrip raw)) lib).mp hm
        simp [hn]
    · rw [remove_book, if_neg h, if_neg h]
  · decide

/-- C3 counterexample: with the library `[⟨"ab", "cd", 2000, "g", false⟩]`
and the term `" a "` (non-empty after trimming), the title field `"ab"` does
contain the trimmed term `"a"` as a case-insensitive substring, so the claim
requires the record to be returned — but the source matches with the
untrimmed term `" a "` and returns no matches. -/
theorem search_trim_counterexample :
    search_book [⟨"ab", "cd", 2000, "g", false⟩] .title " a " = some [] ∧
    search_spec [⟨"ab", "cd", 2000, "g", false⟩] .title " a " =
      some [⟨"ab", "cd", 2000, "g", false⟩] ∧
    pyIn (pyLower (pyStrip " a ")) (pyLower "ab") = true := by
  decide

/-- C3 amended: `search_book` fails (validation branch, `none`) exactly when
the term is empty after trimming; otherwise it returns, in original Library
order, exactly those Books whose chosen field contains the **untrimmed**
term as a case-insensitive substring (the term is trimmed only for the
emptiness check, not for matching); an empty result is a valid non-error
outcome. -/
theorem search_book_correct (lib : List Book) (field : SearchField)
    (term : String) :
    search_book lib field term =
      (if pyStrip term ≠ "" then
        some (lib.filter fun b => pyIn (pyLower term) (pyLower (fieldOf field b)))
      else none) ∧
    (lib.filter fun b => pyIn (pyLower term) (pyLower (fieldOf field b))).Sublist
      lib := by
  constructor
  · cases field <;> simp [search_book, fieldOf]
  · exact List.filter_sublist lib

/-- C4: `add_book` leaves the Library unchanged and fails when title, author
or genre is empty after trimming; otherwise it appends exactly one Book,
built from the trimmed text fields, the given year and the read flag
(`readChoice == "Yes"`), to the end of the Library. -/
theorem add_book_correct (lib : List Book) (title author : String)
    (year : Int) (genre readChoice : String) :
    ((pyStrip title = "" ∨ pyStrip author = "" ∨ pyStrip genre = "") →
      add_book lib title author year genre readChoice = (lib, false)) ∧
    (pyStrip title ≠ "" → pyStrip author ≠ "" → pyStrip genre ≠ "" →
      add_book lib title author year genre readChoice =
        (lib ++ [{ title := pyStrip title, author := pyStrip author,
                   year := year, genre := pyStrip genre,
                   read := readChoice == "Yes" }], true)) := by
  constructor
  · intro h
    rw [add_book, if_neg]
    rintro ⟨h1, h2, h3⟩
    rcases h with h | h | h
    exacts [h1 h, h2 h, h3 h]
  · intro h1 h2 h3
    rw [add_book, if_pos ⟨h1, h2, h3⟩]

/-- Witness for C4: the spec's own rejection example (empty title leaves the
Library unchanged), and a successful append with trimming applied. -/
theorem add_book_correct_witness :
    add_book [] "" "Author" 2000 "Genre" "No" = ([], false) ∧
    add_book [] " Dune " "Herbert" 1965 "SciFi" "Yes" =
      ([{ title := pyStrip " Dune ", author := pyStrip "Herbert", year := 1965,
          genre := pyStrip "SciFi", read := ("Yes" == "Yes") }], true) :=
  ⟨(add_book_correct [] "" "Author" 2000 "Genre" "No").1 (Or.inl (by decide)),
   (add_book_correct [] " Dune " "Herbert" 1965 "SciFi" "Yes").2
     (by decide) (by decide) (by decide)⟩

/-- C5: `statistics` returns the record count, the count of read books, and
`readCount / totalCount * 100` with the division-by-zero guard yielding `0`
on the empty Library; in particular `statistics [] = (0, 0, 0)`. -/
theorem statistics_correct (lib : List Book) :
    statistics lib =
      (lib.length, lib.countP (fun b => b.read),
        if lib.length = 0 then (0 : ℚ)
        else ((lib.countP fun b => b.read : ℚ) / (lib.length : ℚ)) * 100) ∧
    statistics [] = (0, 0, 0) := by
  constructor
  · by_cases h : lib.length = 0
    · simp [statistics, h]
    · simp [statistics, h, Nat.pos_of_ne_zero h]
  · rfl

/-- C6: loading with no file present (from the empty library the process
starts with) yields the empty Library and the `NotFound` condition; loading
a file whose content does not parse yields the empty Library and the
`CorruptData` condition; in both cases the file itself is left untouched,
and `load_library` is a total function (it never faults). -/
theorem load_library_conditions :
    load_library [] .absent = ([], .absent, .notFound) ∧
    ∀ (prev : List Book),
      load_library prev .corrupt = ([], .corrupt, .corruptData) :=
  ⟨rfl, fun _ => rfl⟩

/-- C7 counterexample: `load_library` performs no validation, so loading a
well-formed file holding a record with `year = 3000` places a Book violating
the §3 invariant into the store — the invariant is not preserved by `load`
on arbitrary well-formed files. -/
theorem load_invariant_counterexample :
    (load_library [] (.wellFormed (encodeLibrary
        [⟨"X", "Y", 3000, "G", false⟩]))).1 = [⟨"X", "Y", 3000, "G", false⟩] ∧
    ¬ BookInv ⟨"X", "Y", 3000, "G", false⟩ :=
  ⟨rfl, by decide⟩

/-- C7 amended: every Book placed by `add_book` satisfies the §3 invariant
provided the supplied year lies in `[1, 2025]` (the bound the input widget
enforces), and loading a file produced by `save_library` from an
invariant-satisfying Library preserves the invariant; `load_library` itself
validates nothing, so foreign well-formed files can introduce violating
records. -/
theorem store_invariant_amended :
    (∀ (lib : List Book) (title author : String) (year : Int)
        (genre readChoice : String),
      (∀ b ∈ lib, BookInv b) → 1 ≤ year → year ≤ 2025 →
      ∀ b ∈ (add_book lib title author year genre readChoice).1, BookInv b) ∧
    (∀ (L prev : List Book) (f : FileState),
      (∀ b ∈ L, BookInv b) →
      ∀ b ∈ (load_library prev ((save_library L f false).2.1)).1, BookInv b) := by
  constructor
  · intro lib title author year genre readChoice hlib hy1 hy2 b hb
    rw [add_book] at hb
    by_cases h : pyStrip title ≠ "" ∧ pyStrip author ≠ "" ∧ pyStrip genre ≠ ""
    · rw [if_pos h] at hb
      simp only [List.mem_append, List.mem_singleton] at hb
      rcases hb with hb | hb
      · exact hlib b hb
      · subst hb
        exact ⟨pyStrip_idem title, h.1, pyStrip_idem author, h.2.1,
               pyStrip_idem genre, h.2.2, hy1, hy2⟩
    · rw [if_neg h] at hb
      exact hlib b hb
  · intro L prev f hL b hb
    rw [load_of_save L prev f] at hb
    exact hL b hb

/-- Witness for C7 (amended): adding `" Dune "` (note the padding) with a
year in range to the empty library yields a Book satisfying the invariant. -/
theorem store_invariant_amended_witness :
    BookInv ⟨"Dune", "Herbert", 1965, "SciFi", true⟩ :=
  store_invariant_amended.1 [] " Dune " "Herbert" 1965 "SciFi" "Yes"
    (by simp) (by decide) (by decide)
    ⟨"Dune", "Herbert", 1965, "SciFi", true⟩ (by decide)

/-- C8: `save_library` (when the underlying I/O succeeds) writes the encoding
of the full Library, replacing whatever the file held before; each record is
encoded with its fields in the order title, author, year, genre, read; and
the written text (modelled by `renderFile`, i.e. `json.dump` with
`indent=4`) indents each record, as shown for a sample record. -/
theorem save_library_serializes (lib : List Book) (f : FileState) :
    save_library lib f false = (lib, .wellFormed (encodeLibrary lib), .savedOk) ∧
    (∀ b : Book, encodeBook b =
      .obj [("title", .str b.title), ("author", .str b.author),
            ("year", .int b.year), ("genre", .str b.genre),
            ("read", .bool b.read)]) ∧
    renderFile (encodeLibrary [⟨"Dune", "Frank Herbert", 1965, "SciFi", true⟩]) =
      "[\n    \x7b\n        \"title\": \"Dune\",\n        \"author\": \"Frank Herbert\",\n        \"year\": 1965,\n        \"genre\": \"SciFi\",\n        \"read\": true\n    \x7d\n]" :=
  ⟨rfl, fun _ => rfl, rfl⟩

/-- C9: when the underlying write fails, the failure is reported as the
non-fatal `IOFailure` condition and the in-memory Library is exactly as it
was before the call (the model's `save_library` is total: the exception is
caught, the process is not terminated). -/
theorem save_library_io_failure (lib : List Book) (f : FileState) :
    save_library lib f true = (lib, f, .ioFailure) :=
  rfl

/-- C10: for every library and every (normalized) title, the source's
two-step removal — scan a copy for the first case-insensitively matching
Book, then delete by value equality with `list.remove` — yields the same
resulting Library as directly deleting the element at the first matching
index, including when the Library contains duplicate or fully identical
records. -/
theorem remove_two_step_refines (raw : String) (lib : List Book) :
    removeScan (pyLower (pyStrip raw)) lib =
      removeAtFirst (pyLower (pyStrip raw)) lib :=
  remove_scan_eq_idx (pyLower (pyStrip raw)) lib

end LibMgr
